import Mathlib

/-!
Verification development for the PeepShowBot tweet runner.

The definitions below are a shallow embedding of `tweetrunner.py`:

* strings are modelled by `String` with Python code-point semantics carried by
  the underlying `List Char` (`String.data`);
* the remote API (tweepy) and the random generator are modelled by oracles
  stored in an explicit state `St`: a list of pending API call results and a
  stream of random draws, both consumed in call order;
* every observable side effect (position-file write, media upload attempt,
  tweet creation attempt, sleep, per-line log) is recorded as an `Event`, and
  each embedded function returns the list of events it produces, in order;
* Python exceptions become `Except ApiErr`; an uncaught exception propagates
  as an `Except.error` value.

External interrupts (`KeyboardInterrupt`) are outside the embedding: they are
delivered by the operating system, not by the program.
-/

namespace TweetRunner

/-- Char U+200B, the zero-width space inserted by `Run.insert_zero_width_space`. -/
def zwspChar : Char := Char.ofNat 0x200B

/-- Errors raised by the remote API collaborator (tweepy) or the filesystem:
`fileNotFound` is Python's `FileNotFoundError`, `rateLimited`/`tweepyOther`
are subclasses of `tweepy.TweepyException` (`rateLimited` carries the optional
rate-limit reset timestamp the service may provide), `other` is any other
`Exception`. -/
inductive ApiErr where
  | fileNotFound : ApiErr
  | rateLimited (resetAt : Option Nat) : ApiErr
  | tweepyOther (msg : String) : ApiErr
  | other (msg : String) : ApiErr
deriving DecidableEq, Repr

/-- Exceptions matched by an `except tweepy.TweepyException` clause. -/
def ApiErr.isTweepyExc : ApiErr → Bool
  | .rateLimited _ => true
  | .tweepyOther _ => true
  | _ => false

/-- Exceptions caught by one of the two except clauses of `Run.tweet_with_image`
(`except FileNotFoundError` or `except tweepy.TweepyException`). -/
def caughtByFallback : ApiErr → Bool
  | .fileNotFound => true
  | .rateLimited _ => true
  | .tweepyOther _ => true
  | .other _ => false

/-- Observable steps of the runner, in program order:
position-file write, the per-line `logging.info` emitted when a line starts
being processed, a media-upload API call, a create-tweet API call (with the
exact text sent and the media id, if any), the fallback log of
`tweet_with_image`, a `time.sleep`, and the success/failure logs of
`Run.handle`. -/
inductive Event where
  | posWrite (season episode idx : Nat) : Event
  | processLine (season episode idx : Nat) : Event
  | uploadAttempt (path : String) : Event
  | createAttempt (text : String) (mediaId : Option Nat) : Event
  | imageFallback (path : String) : Event
  | sleep (secs : Nat) : Event
  | lineTweeted (idx : Nat) : Event
  | tweetFailed (idx : Nat) : Event
deriving DecidableEq, Repr

/-- Configuration read from the environment at module load:
`SCRIPT_ROOT`, `TWEET_INTERVAL_SECS` and `RECOVERY_SLEEP_SECS`. -/
structure Env where
  scriptRoot : String
  tweetInterval : Nat
  recoverySleep : Nat
deriving DecidableEq, Repr

/-- Defaults of `tweetrunner.py`: both intervals default to `90 * 60` seconds. -/
def defaultEnv (root : String) : Env :=
  { scriptRoot := root, tweetInterval := 90 * 60, recoverySleep := 90 * 60 }

/-- Oracle state threaded through the embedding: the pending random draws,
the pending results of remote API calls (consumed in call order), and the
current content of the position file. -/
structure St where
  rng : List Nat
  api : List (Except ApiErr Nat)
  pos : Option (Nat × Nat × Nat)

/-- Pop the next random draw (`random.randint` consumes one draw per call). -/
def nextRand (st : St) : Nat × St :=
  match st.rng with
  | [] => (0, st)
  | r :: rs => (r, { st with rng := rs })

/-- Pop the next remote API result. -/
def nextApi (st : St) : Except ApiErr Nat × St :=
  match st.api with
  | [] => (.ok 0, st)
  | a :: rest => (a, { st with api := rest })

/-- Python `str.startswith`, by code points. -/
def strStartsWith : List Char → List Char → Bool
  | [], _ => true
  | _ :: _, [] => false
  | p :: ps, c :: cs => p == c && strStartsWith ps cs

/-- Python `line.startswith(pat)`. -/
def pyStartsWith (s pat : String) : Bool :=
  strStartsWith pat.data s.data

/-- Accumulator pass of Python `str.split()`: split on runs of whitespace,
dropping empty fields. -/
def splitWsAux : List Char → List Char → List (List Char)
  | [], cur => if cur = [] then [] else [cur.reverse]
  | c :: rest, cur =>
    if c.isWhitespace then
      if cur = [] then splitWsAux rest []
      else cur.reverse :: splitWsAux rest []
    else splitWsAux rest (c :: cur)

/-- Python `line.split()` (no argument: split on whitespace, drop empties). -/
def pySplit (s : String) : List String :=
  (splitWsAux s.data []).map (fun cs => ⟨cs⟩)

/-- Python `' '.join(ws)`. -/
def joinSpace : List String → String
  | [] => ""
  | [w] => w
  | w :: rest => w ++ " " ++ joinSpace rest

/-- `Run.extract_image_line_text`: `' '.join(line.split()[2:])`. -/
def extract_image_line_text (line : String) : String :=
  joinSpace ((pySplit line).drop 2)

/-- Python `s[:i] + '​' + s[i:]`, slicing by code points. -/
def insertZWSPAt (s : String) (i : Nat) : String :=
  ⟨s.data.take i ++ zwspChar :: s.data.drop i⟩

/-- `Run.insert_zero_width_space`: an empty string is returned unmodified;
otherwise one zero-width space is inserted at index
`random.randint(0, len(s) - 1)`, consuming one random draw. -/
def insert_zero_width_space (s : String) (st : St) : String × St :=
  if s.data = [] then (s, st)
  else
    let (r, st') := nextRand st
    (insertZWSPAt s (r % s.data.length), st')

/-- Number of zero-width spaces in a string. -/
def countZWSP (s : String) : Nat :=
  s.data.count zwspChar

/-- The string with every zero-width space removed (what a human reader sees). -/
def stripZWSP (s : String) : String :=
  ⟨s.data.filter (fun c => c ≠ zwspChar)⟩

/-- `Run.get_filepath`: `f"{SCRIPT_ROOT}{season_no}/{episode_no}"`. -/
def get_filepath (env : Env) (season_no episode_no : Nat) : String :=
  env.scriptRoot ++ toString season_no ++ "/" ++ toString episode_no

/-- `api_call_with_recovery`: perform the next remote call; on success return
its value with no side effect, on any exception sleep `RECOVERY_SLEEP` seconds
and re-raise the same exception. -/
def api_call_with_recovery (env : Env) (st : St) :
    Except ApiErr Nat × St × List Event :=
  match nextApi st with
  | (.ok v, st') => (.ok v, st', [])
  | (.error e, st') => (.error e, st', [.sleep env.recoverySleep])

/-- A media-upload call routed through `api_call_with_recovery`
(`self.tw.auth.media_upload(img_path)`). -/
def uploadCall (env : Env) (path : String) (st : St) :
    Except ApiErr Nat × St × List Event :=
  let r := api_call_with_recovery env st
  (r.1, r.2.1, .uploadAttempt path :: r.2.2)

/-- A create-tweet call routed through `api_call_with_recovery`
(`self.tw.api.create_tweet(text=..., media_ids=...)`). -/
def createCall (env : Env) (text : String) (mediaId : Option Nat) (st : St) :
    Except ApiErr Nat × St × List Event :=
  let r := api_call_with_recovery env st
  (r.1, r.2.1, .createAttempt text mediaId :: r.2.2)

/-- `Run.tweet`: obfuscate the whole line, then create a text-only tweet. -/
def tweet (env : Env) (line : String) (st : St) :
    Except ApiErr Nat × St × List Event :=
  let p := insert_zero_width_space line st
  createCall env p.1 none p.2

/-- `Run.tweet_with_image`: derive the image path, strip and obfuscate the
caption once, then try `media_upload` followed by `create_tweet` with the
media id; on `FileNotFoundError` or `tweepy.TweepyException` raised inside
that try block, log the degradation and create a text-only tweet with the
same (already obfuscated) text; any other exception propagates. -/
def tweet_with_image (env : Env) (season_no episode_no : Nat)
    (img_no line : String) (st : St) : Except ApiErr Nat × St × List Event :=
  let img_path := get_filepath env season_no episode_no ++ "/img/" ++ img_no ++ ".jpg"
  let p := insert_zero_width_space (extract_image_line_text line) st
  let text := p.1
  let u := uploadCall env img_path p.2
  match u.1 with
  | .ok mediaId =>
    let c := createCall env text (some mediaId) u.2.1
    match c.1 with
    | .ok tweetId => (.ok tweetId, c.2.1, u.2.2 ++ c.2.2)
    | .error e =>
      if caughtByFallback e then
        let f := createCall env text none c.2.1
        (f.1, f.2.1, u.2.2 ++ c.2.2 ++ (Event.imageFallback img_path :: f.2.2))
      else (.error e, c.2.1, u.2.2 ++ c.2.2)
  | .error e =>
    if caughtByFallback e then
      let f := createCall env text none u.2.1
      (f.1, f.2.1, u.2.2 ++ (Event.imageFallback img_path :: f.2.2))
    else (.error e, u.2.1, u.2.2)

/-- One iteration of the loop body of `Run.handle` at index `i`:
write the position file, skip if `i < cust_start`, otherwise log the line,
dispatch on `line.startswith("img")` (where `line.split()[1]` raises
`IndexError` if the line has fewer than two fields), and close the iteration
with either the posting-interval sleep and success log, or the error log and
the recovery sleep. -/
def handleLine (env : Env) (season_no episode_no cust_start i : Nat)
    (line : String) (st : St) : St × List Event :=
  let st1 : St := { st with pos := some (season_no, episode_no, i) }
  if i < cust_start then
    (st1, [.posWrite season_no episode_no i])
  else
    let step :=
      if pyStartsWith line "img" then
        match (pySplit line)[1]? with
        | some img_no => tweet_with_image env season_no episode_no img_no line st1
        | none => (Except.error (ApiErr.other "IndexError"), st1, ([] : List Event))
      else tweet env line st1
    match step.1 with
    | .ok _ =>
      (step.2.1, Event.posWrite season_no episode_no i ::
        Event.processLine season_no episode_no i ::
          (step.2.2 ++ [.sleep env.tweetInterval, .lineTweeted i]))
    | .error _ =>
      (step.2.1, Event.posWrite season_no episode_no i ::
        Event.processLine season_no episode_no i ::
          (step.2.2 ++ [.tweetFailed i, .sleep env.recoverySleep]))

/-- The enumerated loop of `Run.handle`, starting at index `i`. -/
def handleGo (env : Env) (season_no episode_no cust_start : Nat) :
    Nat → List String → St → St × List Event
  | _, [], st => (st, [])
  | i, l :: rest, st =>
    let p := handleLine env season_no episode_no cust_start i l st
    let q := handleGo env season_no episode_no cust_start (i + 1) rest p.1
    (q.1, p.2 ++ q.2)

/-- `Run.handle`: return immediately on an empty transcript, otherwise run the
enumerated loop from index 0. -/
def handle (env : Env) (season_no episode_no cust_start : Nat)
    (transcript : List String) (st : St) : St × List Event :=
  if transcript = [] then (st, [])
  else handleGo env season_no episode_no cust_start 0 transcript st

/-- The reading loop of `Extract.listify`: keep each line whose content (after
removing its trailing newline) is non-empty, in file order. -/
def listifyGo : List String → List String
  | [] => []
  | l :: rest => if l = "" then listifyGo rest else l :: listifyGo rest

/-- `Extract.listify`: the transcript file is modelled as
`Option (List String)` — `none` when `open`/read raises `OSError`/`IOError`
(the error is logged and the loop body never runs), `some lines` when the file
holds those newline-stripped lines.  Missing or unreadable files yield an
empty transcript (with a warning), never an exception. -/
def listify : Option (List String) → List String
  | none => []
  | some ls => listifyGo ls

/-- The filesystem is modelled as a map from (season, episode) to the content
of `{SCRIPT_ROOT}{season}/{episode}/{episode}.txt`, `none` when unreadable. -/
def Transcripts := Nat → Nat → Option (List String)

/-- The `seasons` table of `run_tweets`: episodes per season. -/
def seasonsTable : List Nat := [6, 6, 6, 6, 6, 6, 6, 6, 6]

/-- The inner loop of `run_tweets` over the remaining episode numbers of one
season.  Returns the final value of the mutable `line_startpoint`, which is
reset to 0 after every episode run; the inter-episode `time.sleep` uses
`RECOVERY_SLEEP`. -/
def runEpisodes (env : Env) (tr : Transcripts) (season : Nat) :
    Nat → List Nat → St → St × Nat × List Event
  | line_start, [], st => (st, line_start, [])
  | line_start, e :: rest, st =>
    let p := handle env season e line_start (listify (tr season e)) st
    let q := runEpisodes env tr season 0 rest p.1
    (q.1, q.2.1, p.2 ++ Event.sleep env.recoverySleep :: q.2.2)

/-- The outer loop of `run_tweets` over the remaining season numbers.
`episode_startpoint` is reset to 1 after each season. -/
def runSeasons (env : Env) (tr : Transcripts) :
    Nat → Nat → List Nat → St → St × List Event
  | _, _, [], st => (st, [])
  | episode_start, line_start, s :: rest, st =>
    let no_of_episodes := seasonsTable.getD (s - 1) 0
    let p := runEpisodes env tr s line_start
      (List.range' episode_start (no_of_episodes + 1 - episode_start)) st
    let q := runSeasons env tr 1 p.2.1 rest p.1
    (q.1, p.2.2 ++ q.2)

/-- `run_tweets`: iterate seasons from `season_startpoint` to
`len(seasons)`, delegating each (season, episode) pair to `Run.handle`. -/
def run_tweets (env : Env) (tr : Transcripts)
    (season_startpoint episode_startpoint line_startpoint : Nat) (st : St) :
    St × List Event :=
  runSeasons env tr episode_startpoint line_startpoint
    (List.range' season_startpoint (seasonsTable.length + 1 - season_startpoint)) st

/-- The position line written by `Run.handle`: `f"{season} {episode} {i}"`. -/
def formatPosition (season episode i : Nat) : String :=
  toString season ++ " " ++ toString episode ++ " " ++ toString i

/-- Digit-string parsing pass of Python `int`. -/
def pyToNatAux : List Char → Nat → Option Nat
  | [], acc => some acc
  | c :: rest, acc =>
    if c.isDigit then pyToNatAux rest (acc * 10 + (c.toNat - 48)) else none

/-- Python `int(token)` on a decimal token, `none` when `ValueError` is raised. -/
def pyToNat : String → Option Nat
  | s => match s.data with
    | [] => none
    | cs => pyToNatAux cs 0

/-- The `continue` branch of `main`: split the first line of the position file;
unless it has exactly three integer fields, a `ValueError` is raised (caught by
`main`, which prints a usage message instead of running). -/
def parsePosition (content : String) : Option (Nat × Nat × Nat) :=
  match pySplit content with
  | [a, b, c] =>
    match pyToNat a, pyToNat b, pyToNat c with
    | some s, some e, some i => some (s, e, i)
    | _, _, _ => none
  | _ => none

/-- `main` invoked as `python tweetrunner.py continue`: read the saved
position `(s, e, i)` and call `run_tweets(tw, s, e, i + 1)`; `none` models the
usage-message exit when the position file is malformed. -/
def mainContinue (env : Env) (tr : Transcripts) (content : String) (st : St) :
    Option (St × List Event) :=
  match parsePosition content with
  | some (s, e, i) => some (run_tweets env tr s e (i + 1) st)
  | none => none

/-- Positions `(season, episode, index)` of the lines actually processed
(posted or at least attempted), extracted from a trace. -/
def processedOf (evs : List Event) : List (Nat × Nat × Nat) :=
  evs.filterMap fun ev =>
    match ev with
    | .processLine s e i => some (s, e, i)
    | _ => none

/-- Positions written to the position file, extracted from a trace. -/
def visitedOf (evs : List Event) : List (Nat × Nat × Nat) :=
  evs.filterMap fun ev =>
    match ev with
    | .posWrite s e i => some (s, e, i)
    | _ => none

/-- Texts of the create-tweet attempts in a trace. -/
def createTextsOf (evs : List Event) : List String :=
  evs.filterMap fun ev =>
    match ev with
    | .createAttempt text _ => some text
    | _ => none

/-- Events a single line may produce strictly between its position write / log
and its closing sleep: network attempts, recovery sleeps and fallback logs —
in particular neither a position write nor a process log. -/
def isInnerEv : Event → Bool
  | .uploadAttempt _ => true
  | .createAttempt _ _ => true
  | .imageFallback _ => true
  | .sleep _ => true
  | _ => false

/-! ### Trace projection lemmas -/

lemma processedOf_append (a b : List Event) :
    processedOf (a ++ b) = processedOf a ++ processedOf b :=
  List.filterMap_append _ _ _

lemma visitedOf_append (a b : List Event) :
    visitedOf (a ++ b) = visitedOf a ++ visitedOf b :=
  List.filterMap_append _ _ _

lemma processedOf_eq_nil_of_inner :
    ∀ {evs : List Event}, evs.all isInnerEv = true → processedOf evs = [] := by
  intro evs h
  induction evs with
  | nil => rfl
  | cons ev rest ih =>
    rw [List.all_cons, Bool.and_eq_true] at h
    have h2 := ih h.2
    cases ev <;> simp [isInnerEv] at h <;>
      simpa [processedOf, List.filterMap_cons] using h2

lemma visitedOf_eq_nil_of_inner :
    ∀ {evs : List Event}, evs.all isInnerEv = true → visitedOf evs = [] := by
  intro evs h
  induction evs with
  | nil => rfl
  | cons ev rest ih =>
    rw [List.all_cons, Bool.and_eq_true] at h
    have h2 := ih h.2
    cases ev <;> simp [isInnerEv] at h <;>
      simpa [visitedOf, List.filterMap_cons] using h2

/-! ### Events produced by the publishing layer are inner events -/

lemma acwr_inner (env : Env) (st : St) :
    ((api_call_with_recovery env st).2.2).all isInnerEv = true := by
  obtain ⟨rng, api, pos⟩ := st
  cases api with
  | nil => simp [api_call_with_recovery, nextApi, isInnerEv]
  | cons a rest => cases a <;> simp [api_call_with_recovery, nextApi, isInnerEv]

lemma uploadCall_inner (env : Env) (path : String) (st : St) :
    ((uploadCall env path st).2.2).all isInnerEv = true := by
  simpa [uploadCall, isInnerEv] using acwr_inner env st

lemma createCall_inner (env : Env) (text : String) (mediaId : Option Nat) (st : St) :
    ((createCall env text mediaId st).2.2).all isInnerEv = true := by
  simpa [createCall, isInnerEv] using acwr_inner env st

lemma tweet_inner (env : Env) (line : String) (st : St) :
    ((tweet env line st).2.2).all isInnerEv = true := by
  simp only [tweet]
  exact createCall_inner env _ none _

lemma tweet_with_image_inner (env : Env) (season_no episode_no : Nat)
    (img_no line : String) (st : St) :
    ((tweet_with_image env season_no episode_no img_no line st).2.2).all isInnerEv = true := by
  unfold tweet_with_image
  dsimp only
  split
  · split
    · simp only [List.all_append, Bool.and_eq_true]
      exact ⟨uploadCall_inner _ _ _, createCall_inner _ _ _ _⟩
    · split
      · simp only [List.all_append, List.all_cons, Bool.and_eq_true]
        exact ⟨⟨uploadCall_inner _ _ _, createCall_inner _ _ _ _⟩, rfl,
          createCall_inner _ _ _ _⟩
      · simp only [List.all_append, Bool.and_eq_true]
        exact ⟨uploadCall_inner _ _ _, createCall_inner _ _ _ _⟩
  · split
    · simp only [List.all_append, List.all_cons, Bool.and_eq_true]
      exact ⟨uploadCall_inner _ _ _, rfl, createCall_inner _ _ _ _⟩
    · exact uploadCall_inner _ _ _

/-! ### The shape of one loop iteration of `Run.handle`

Every iteration of the line loop does exactly one of three things: it skips a
line below `cust_start` right after writing the position file; or it processes
the line and closes with the posting-interval sleep and the success log; or it
processes the line, logs the failure and closes with the recovery sleep.  In
every case the iteration opens with the position-file write. -/

lemma handleLine_shape (env : Env) (s e c i : Nat) (l : String) (st : St) :
    ((handleLine env s e c i l st).2 = [.posWrite s e i] ∧ i < c)
    ∨ (∃ mid, (handleLine env s e c i l st).2
          = .posWrite s e i :: .processLine s e i ::
              (mid ++ [.sleep env.tweetInterval, .lineTweeted i])
        ∧ mid.all isInnerEv = true ∧ c ≤ i)
    ∨ (∃ mid, (handleLine env s e c i l st).2
          = .posWrite s e i :: .processLine s e i ::
              (mid ++ [.tweetFailed i, .sleep env.recoverySleep])
        ∧ mid.all isInnerEv = true ∧ c ≤ i) := by
  by_cases hc : i < c
  · exact Or.inl ⟨by simp [handleLine, hc], hc⟩
  · have hc' : c ≤ i := Nat.le_of_not_lt hc
    right
    by_cases himg : pyStartsWith l "img" = true
    · cases hsplit : (pySplit l)[1]? with
      | some img_no =>
        have hall := tweet_with_image_inner env s e img_no l
          { st with pos := some (s, e, i) }
        simp only [handleLine, if_neg hc, himg, if_true, hsplit]
        split
        · exact Or.inl ⟨_, rfl, hall, hc'⟩
        · exact Or.inr ⟨_, rfl, hall, hc'⟩
      | none =>
        simp only [handleLine, if_neg hc, himg, if_true, hsplit]
        exact Or.inr ⟨[], rfl, rfl, hc'⟩
    · have hall := tweet_inner env l { st with pos := some (s, e, i) }
      simp only [handleLine, if_neg hc, himg, if_false, Bool.false_eq_true]
      split
      · exact Or.inl ⟨_, rfl, hall, hc'⟩
      · exact Or.inr ⟨_, rfl, hall, hc'⟩

lemma handleLine_P (env : Env) (s e c i : Nat) (l : String) (st : St) :
    processedOf (handleLine env s e c i l st).2
      = if c ≤ i then [(s, e, i)] else [] := by
  rcases handleLine_shape env s e c i l st with
    ⟨hev, hc⟩ | ⟨mid, hev, hall, hc⟩ | ⟨mid, hev, hall, hc⟩
  · rw [hev, if_neg (Nat.not_le.mpr hc)]
    rfl
  · have hmid := processedOf_eq_nil_of_inner hall
    simp only [processedOf] at hmid ⊢
    rw [hev, if_pos hc]
    simp [List.filterMap_cons, List.filterMap_append, hmid]
  · have hmid := processedOf_eq_nil_of_inner hall
    simp only [processedOf] at hmid ⊢
    rw [hev, if_pos hc]
    simp [List.filterMap_cons, List.filterMap_append, hmid]

lemma handleLine_V (env : Env) (s e c i : Nat) (l : String) (st : St) :
    visitedOf (handleLine env s e c i l st).2 = [(s, e, i)] := by
  rcases handleLine_shape env s e c i l st with
    ⟨hev, _⟩ | ⟨mid, hev, hall, _⟩ | ⟨mid, hev, hall, _⟩
  · rw [hev]; rfl
  · have hmid := visitedOf_eq_nil_of_inner hall
    simp only [visitedOf] at hmid ⊢
    rw [hev]
    simp [List.filterMap_cons, List.filterMap_append, hmid]
  · have hmid := visitedOf_eq_nil_of_inner hall
    simp only [visitedOf] at hmid ⊢
    rw [hev]
    simp [List.filterMap_cons, List.filterMap_append, hmid]

/-! ### The line loop of `Run.handle` -/

lemma handleGo_P (env : Env) (s e c : Nat) :
    ∀ (L : List String) (i : Nat) (st : St),
      processedOf (handleGo env s e c i L st).2
        = ((List.range' i L.length).filter fun j => decide (c ≤ j)).map
            fun j => (s, e, j) := by
  intro L
  induction L with
  | nil => intro i st; rfl
  | cons l rest ih =>
    intro i st
    simp only [handleGo]
    rw [processedOf_append, handleLine_P, ih]
    by_cases hci : c ≤ i
    · simp [List.range'_succ, hci]
    · simp [List.range'_succ, hci]

lemma handleGo_V (env : Env) (s e c : Nat) :
    ∀ (L : List String) (i : Nat) (st : St),
      visitedOf (handleGo env s e c i L st).2
        = (List.range' i L.length).map fun j => (s, e, j) := by
  intro L
  induction L with
  | nil => intro i st; rfl
  | cons l rest ih =>
    intro i st
    simp only [handleGo]
    rw [visitedOf_append, handleLine_V, ih]
    simp [List.range'_succ]

/-- A line block: the events one iteration of the line loop contributes.  It
opens with the position-file write for its index, and nothing after that
opening write touches the position file again within the block — so every
network call of the block happens after its position write. -/
def isLineBlock (s e i : Nat) (evs : List Event) : Prop :=
  ∃ tl, evs = Event.posWrite s e i :: tl ∧ visitedOf tl = []

/-- A trace decomposes into consecutive line blocks, one per transcript line,
in index order starting at `i`. -/
def isBlockSeq (s e : Nat) : Nat → List String → List Event → Prop
  | _, [], evs => evs = []
  | i, _ :: rest, evs =>
    ∃ b tl, evs = b ++ tl ∧ isLineBlock s e i b ∧ isBlockSeq s e (i + 1) rest tl

lemma handleLine_block (env : Env) (s e c i : Nat) (l : String) (st : St) :
    isLineBlock s e i (handleLine env s e c i l st).2 := by
  rcases handleLine_shape env s e c i l st with
    ⟨hev, _⟩ | ⟨mid, hev, hall, _⟩ | ⟨mid, hev, hall, _⟩
  · exact ⟨[], hev, rfl⟩
  · refine ⟨_, hev, ?_⟩
    have hmid := visitedOf_eq_nil_of_inner hall
    simp only [visitedOf] at hmid ⊢
    simp [List.filterMap_cons, List.filterMap_append, hmid]
  · refine ⟨_, hev, ?_⟩
    have hmid := visitedOf_eq_nil_of_inner hall
    simp only [visitedOf] at hmid ⊢
    simp [List.filterMap_cons, List.filterMap_append, hmid]

lemma handleGo_blocks (env : Env) (s e c : Nat) :
    ∀ (L : List String) (i : Nat) (st : St),
      isBlockSeq s e i L (handleGo env s e c i L st).2 := by
  intro L
  induction L with
  | nil => intro i st; rfl
  | cons l rest ih =>
    intro i st
    exact ⟨_, _, rfl, handleLine_block env s e c i l st, ih (i + 1) _⟩

/-! ### `Run.handle` -/

lemma handle_P (env : Env) (s e c : Nat) (L : List String) (st : St) :
    processedOf (handle env s e c L st).2
      = ((List.range L.length).filter fun j => decide (c ≤ j)).map
          fun j => (s, e, j) := by
  by_cases h : L = []
  · subst h; rfl
  · simp only [handle, if_neg h]
    rw [handleGo_P, List.range_eq_range']

lemma handle_V (env : Env) (s e c : Nat) (L : List String) (st : St) :
    visitedOf (handle env s e c L st).2
      = (List.range L.length).map fun j => (s, e, j) := by
  by_cases h : L = []
  · subst h; rfl
  · simp only [handle, if_neg h]
    rw [handleGo_V, List.range_eq_range']

lemma handle_blocks (env : Env) (s e c : Nat) (L : List String) (st : St) :
    isBlockSeq s e 0 L (handle env s e c L st).2 := by
  by_cases h : L = []
  · subst h; rfl
  · simp only [handle, if_neg h]
    exact handleGo_blocks env s e c L 0 st

/-! ### The campaign loops of `run_tweets` -/

lemma runEpisodes_ls_zero (env : Env) (tr : Transcripts) (season : Nat) :
    ∀ (eps : List Nat) (st : St), (runEpisodes env tr season 0 eps st).2.1 = 0 := by
  intro eps
  induction eps with
  | nil => intro st; rfl
  | cons e rest ih => intro st; simp only [runEpisodes]; exact ih _

lemma runEpisodes_ls_cons (env : Env) (tr : Transcripts) (season ls e : Nat)
    (rest : List Nat) (st : St) :
    (runEpisodes env tr season ls (e :: rest) st).2.1 = 0 := by
  simp only [runEpisodes]
  exact runEpisodes_ls_zero env tr season rest _

lemma filter_zero_le (n : Nat) :
    (List.range n).filter (fun j => decide (0 ≤ j)) = List.range n :=
  List.filter_eq_self.mpr (by intro a _; simp)

lemma runEpisodes_P_zero (env : Env) (tr : Transcripts) (season : Nat) :
    ∀ (eps : List Nat) (st : St),
      processedOf (runEpisodes env tr season 0 eps st).2.2
        = eps.flatMap fun ε =>
            (List.range (listify (tr season ε)).length).map fun j => (season, ε, j) := by
  intro eps
  induction eps with
  | nil => intro st; rfl
  | cons ε rest ih =>
    intro st
    simp only [runEpisodes]
    rw [processedOf_append]
    have hsl : ∀ evs, processedOf (Event.sleep env.recoverySleep :: evs) = processedOf evs :=
      fun evs => rfl
    rw [hsl, handle_P, ih, filter_zero_le, List.flatMap_cons]

lemma runEpisodes_P_cons (env : Env) (tr : Transcripts) (season ls ε : Nat)
    (rest : List Nat) (st : St) :
    processedOf (runEpisodes env tr season ls (ε :: rest) st).2.2
      = ((List.range (listify (tr season ε)).length).filter fun j => decide (ls ≤ j)).map
          (fun j => (season, ε, j))
        ++ rest.flatMap fun ε' =>
            (List.range (listify (tr season ε')).length).map fun j => (season, ε', j) := by
  simp only [runEpisodes]
  rw [processedOf_append]
  have hsl : ∀ evs, processedOf (Event.sleep env.recoverySleep :: evs) = processedOf evs :=
    fun evs => rfl
  rw [hsl, handle_P, runEpisodes_P_zero]

lemma seasonsTable_getD (k : Nat) (hk : k < 9) : seasonsTable.getD k 0 = 6 := by
  interval_cases k <;> rfl

lemma runSeasons_P_zero (env : Env) (tr : Transcripts) :
    ∀ (seasonList : List Nat) (st : St),
      processedOf (runSeasons env tr 1 0 seasonList st).2
        = seasonList.flatMap fun σ =>
            (List.range' 1 (seasonsTable.getD (σ - 1) 0)).flatMap fun ε =>
              (List.range (listify (tr σ ε)).length).map fun j => (σ, ε, j) := by
  intro seasonList
  induction seasonList with
  | nil => intro st; rfl
  | cons σ rest ih =>
    intro st
    simp only [runSeasons]
    rw [processedOf_append]
    have hc : seasonsTable.getD (σ - 1) 0 + 1 - 1 = seasonsTable.getD (σ - 1) 0 := by
      omega
    rw [hc, runEpisodes_P_zero, runEpisodes_ls_zero, ih, List.flatMap_cons]

lemma processed_run_tweets (env : Env) (tr : Transcripts) (s e ls : Nat) (st : St)
    (hs1 : 1 ≤ s) (hs9 : s ≤ 9) (he1 : 1 ≤ e) (he6 : e ≤ 6) :
    processedOf (run_tweets env tr s e ls st).2
      = ((List.range (listify (tr s e)).length).filter fun j => decide (ls ≤ j)).map
          (fun j => (s, e, j))
        ++ ((List.range' (e + 1) (6 - e)).flatMap fun ε =>
              (List.range (listify (tr s ε)).length).map fun j => (s, ε, j))
        ++ ((List.range' (s + 1) (9 - s)).flatMap fun σ =>
              (List.range' 1 6).flatMap fun ε =>
                (List.range (listify (tr σ ε)).length).map fun j => (σ, ε, j)) := by
  unfold run_tweets
  have hlen : seasonsTable.length = 9 := rfl
  rw [hlen]
  have h10 : 9 + 1 - s = (9 - s) + 1 := by omega
  rw [h10, List.range'_succ]
  simp only [runSeasons]
  have hcnt : seasonsTable.getD (s - 1) 0 = 6 := seasonsTable_getD _ (by omega)
  rw [hcnt]
  have h7 : 6 + 1 - e = (6 - e) + 1 := by omega
  rw [h7, List.range'_succ, processedOf_append, runEpisodes_P_cons,
    runEpisodes_ls_cons, runSeasons_P_zero]
  have hcongr :
      (List.range' (s + 1) (9 - s)).flatMap (fun σ =>
          (List.range' 1 (seasonsTable.getD (σ - 1) 0)).flatMap fun ε =>
            (List.range (listify (tr σ ε)).length).map fun j => (σ, ε, j))
        = (List.range' (s + 1) (9 - s)).flatMap fun σ =>
            (List.range' 1 6).flatMap fun ε =>
              (List.range (listify (tr σ ε)).length).map fun j => (σ, ε, j) := by
    apply List.flatMap_congr
    intro σ hσ
    rw [List.mem_range'_1] at hσ
    rw [seasonsTable_getD _ (by omega)]
  rw [hcongr, List.append_assoc]

/-! ### The continuation point after a saved position -/

/-- Modelled from the spec's resume property: the campaign positions strictly
after a saved position `(s, e, i)`, in campaign order — the rest of episode
`e` of season `s` from line `i + 1`, then episodes `e+1`..`6` of season `s` in
full, then seasons `s+1`..`9`, episodes `1`..`6`, in full, each from line 0. -/
def resumeSpec (tr : Transcripts) (s e i : Nat) : List (Nat × Nat × Nat) :=
  ((List.range (listify (tr s e)).length).filter fun j => decide (i + 1 ≤ j)).map
    (fun j => (s, e, j))
  ++ ((List.range' (e + 1) (6 - e)).flatMap fun ε =>
        (List.range (listify (tr s ε)).length).map fun j => (s, ε, j))
  ++ ((List.range' (s + 1) (9 - s)).flatMap fun σ =>
        (List.range' 1 6).flatMap fun ε =>
          (List.range (listify (tr σ ε)).length).map fun j => (σ, ε, j))

lemma resumeSpec_mem (tr : Transcripts) (s e i j : Nat)
    (h : (s, e, j) ∈ resumeSpec tr s e i) : i + 1 ≤ j := by
  unfold resumeSpec at h
  rw [List.mem_append, List.mem_append] at h
  rcases h with (h | h) | h
  · rw [List.mem_map] at h
    obtain ⟨j', hj', hji⟩ := h
    rw [List.mem_filter] at hj'
    have hdec := of_decide_eq_true hj'.2
    simp only [Prod.mk.injEq] at hji
    omega
  · rw [List.mem_flatMap] at h
    obtain ⟨ε, hε, hmem⟩ := h
    rw [List.mem_map] at hmem
    obtain ⟨j', _, hji⟩ := hmem
    rw [List.mem_range'_1] at hε
    simp only [Prod.mk.injEq] at hji
    omega
  · rw [List.mem_flatMap] at h
    obtain ⟨σ, hσ, hmem⟩ := h
    rw [List.mem_flatMap] at hmem
    obtain ⟨ε, _, hmem⟩ := hmem
    rw [List.mem_map] at hmem
    obtain ⟨j', _, hji⟩ := hmem
    rw [List.mem_range'_1] at hσ
    simp only [Prod.mk.injEq] at hji
    omega

lemma filter_le_range (n k : Nat) :
    (List.range n).filter (fun j => decide (k ≤ j)) = List.range' k (n - k) := by
  induction n with
  | zero => simp
  | succ n ih =>
    rw [List.range_succ, List.filter_append, ih]
    by_cases hk : k ≤ n
    · have h1 : n + 1 - k = (n - k) + 1 := by omega
      rw [h1, List.range'_concat]
      have h2 : k + 1 * (n - k) = n := by omega
      rw [h2]
      congr 1
      simp [List.filter_cons, hk]
    · have h1 : n + 1 - k = 0 := by omega
      have h2 : n - k = 0 := by omega
      rw [h1, h2]
      simp [List.filter_cons, hk]

lemma resumeSpec_head (tr : Transcripts) (s e i : Nat)
    (h : i + 1 < (listify (tr s e)).length) :
    (resumeSpec tr s e i).head? = some (s, e, i + 1) := by
  unfold resumeSpec
  rw [filter_le_range]
  have h1 : (listify (tr s e)).length - (i + 1)
      = ((listify (tr s e)).length - (i + 2)) + 1 := by omega
  rw [h1, List.range'_succ]
  rfl

/-! ### Properties of the zero-width-space insertion -/

lemma stripZWSP_insertZWSPAt (s : String) (n : Nat) :
    stripZWSP (insertZWSPAt s n) = stripZWSP s := by
  unfold stripZWSP insertZWSPAt
  congr 1
  rw [List.filter_append, List.filter_cons]
  have hz : (decide (zwspChar ≠ zwspChar)) = false := by simp
  rw [hz]
  simp only [Bool.false_eq_true, if_false]
  rw [← List.filter_append, List.take_append_drop]

lemma countZWSP_insertZWSPAt (s : String) (n : Nat) :
    countZWSP (insertZWSPAt s n) = countZWSP s + 1 := by
  unfold countZWSP insertZWSPAt
  show List.count zwspChar _ = _
  rw [List.count_append, List.count_cons]
  conv_rhs => rw [← List.take_append_drop n s.data, List.count_append]
  simp
  omega

lemma length_insertZWSPAt (s : String) (n : Nat) (hn : n ≤ s.data.length) :
    (insertZWSPAt s n).data.length = s.data.length + 1 := by
  unfold insertZWSPAt
  simp only [List.length_append, List.length_cons, List.length_take, List.length_drop]
  omega

lemma stripZWSP_insert_zero_width_space (s : String) (st : St) :
    stripZWSP (insert_zero_width_space s st).1 = stripZWSP s := by
  unfold insert_zero_width_space
  split
  · rfl
  · exact stripZWSP_insertZWSPAt _ _

lemma insert_api_pos (s : String) (st : St) :
    (insert_zero_width_space s st).2.api = st.api
    ∧ (insert_zero_width_space s st).2.pos = st.pos := by
  unfold insert_zero_width_space nextRand
  split
  · exact ⟨rfl, rfl⟩
  · cases st.rng <;> exact ⟨rfl, rfl⟩

/-! ### Computation lemmas for the publishing layer -/

lemma acwr_ok (env : Env) (st : St) (v : Nat) (rest : List (Except ApiErr Nat))
    (h : st.api = .ok v :: rest) :
    api_call_with_recovery env st = (.ok v, { st with api := rest }, []) := by
  obtain ⟨rng, api, pos⟩ := st
  replace h : api = Except.ok v :: rest := h
  subst h
  rfl

lemma acwr_error (env : Env) (st : St) (e : ApiErr) (rest : List (Except ApiErr Nat))
    (h : st.api = .error e :: rest) :
    api_call_with_recovery env st
      = (.error e, { st with api := rest }, [.sleep env.recoverySleep]) := by
  obtain ⟨rng, api, pos⟩ := st
  replace h : api = Except.error e :: rest := h
  subst h
  rfl

lemma uploadCall_ok (env : Env) (path : String) (st : St) (v : Nat)
    (rest : List (Except ApiErr Nat)) (h : st.api = .ok v :: rest) :
    uploadCall env path st = (.ok v, { st with api := rest }, [.uploadAttempt path]) := by
  simp only [uploadCall, acwr_ok env st v rest h]

lemma uploadCall_error (env : Env) (path : String) (st : St) (e : ApiErr)
    (rest : List (Except ApiErr Nat)) (h : st.api = .error e :: rest) :
    uploadCall env path st
      = (.error e, { st with api := rest },
         [.uploadAttempt path, .sleep env.recoverySleep]) := by
  simp only [uploadCall, acwr_error env st e rest h]

lemma createCall_ok (env : Env) (text : String) (m : Option Nat) (st : St) (v : Nat)
    (rest : List (Except ApiErr Nat)) (h : st.api = .ok v :: rest) :
    createCall env text m st = (.ok v, { st with api := rest }, [.createAttempt text m]) := by
  simp only [createCall, acwr_ok env st v rest h]

lemma createCall_error (env : Env) (text : String) (m : Option Nat) (st : St) (e : ApiErr)
    (rest : List (Except ApiErr Nat)) (h : st.api = .error e :: rest) :
    createCall env text m st
      = (.error e, { st with api := rest },
         [.createAttempt text m, .sleep env.recoverySleep]) := by
  simp only [createCall, acwr_error env st e rest h]

lemma tweet_ok (env : Env) (line : String) (st : St) (v : Nat)
    (rest : List (Except ApiErr Nat)) (h : st.api = .ok v :: rest) :
    tweet env line st
      = (.ok v, { (insert_zero_width_space line st).2 with api := rest },
         [.createAttempt (insert_zero_width_space line st).1 none]) := by
  simp only [tweet]
  exact createCall_ok env _ none _ v rest (by rw [(insert_api_pos line st).1]; exact h)

lemma tweet_error (env : Env) (line : String) (st : St) (e : ApiErr)
    (rest : List (Except ApiErr Nat)) (h : st.api = .error e :: rest) :
    tweet env line st
      = (.error e, { (insert_zero_width_space line st).2 with api := rest },
         [.createAttempt (insert_zero_width_space line st).1 none,
          .sleep env.recoverySleep]) := by
  simp only [tweet]
  exact createCall_error env _ none _ e rest (by rw [(insert_api_pos line st).1]; exact h)

/-! ## Claim theorems -/

/-- C1 (resume correctness): if the position file was last written as
`(s, e, i)` — its content parses to `(s, e, i)` — then invoking the program
in `continue` mode runs the campaign, and the sequence of positions it
processes is exactly the campaign-ordered sequence of positions strictly
after `(s, e, i)` (`resumeSpec`): processing begins at line `i + 1` of
episode `e` of season `s` when that line exists (third conjunct), no line of
episode `e` with index `≤ i` is ever re-posted (fourth conjunct), and when
`i` was the episode's final index the first chunk of `resumeSpec` is empty,
so the campaign rolls over to episode `e + 1` (or to season `s + 1` after
episode 6) without re-posting any line of episode `e`. -/
theorem c1_resume_correctness (env : Env) (tr : Transcripts) (content : String)
    (s e i : Nat) (st : St)
    (hparse : parsePosition content = some (s, e, i))
    (hs1 : 1 ≤ s) (hs9 : s ≤ 9) (he1 : 1 ≤ e) (he6 : e ≤ 6) :
    ∃ out, mainContinue env tr content st = some out
      ∧ processedOf out.2 = resumeSpec tr s e i
      ∧ (i + 1 < (listify (tr s e)).length →
          (processedOf out.2).head? = some (s, e, i + 1))
      ∧ ∀ j, j ≤ i → (s, e, j) ∉ processedOf out.2 := by
  have hm : processedOf (run_tweets env tr s e (i + 1) st).2 = resumeSpec tr s e i := by
    rw [processed_run_tweets env tr s e (i + 1) st hs1 hs9 he1 he6]
    rfl
  refine ⟨run_tweets env tr s e (i + 1) st, ?_, hm, ?_, ?_⟩
  · simp [mainContinue, hparse]
  · intro hlt
    rw [hm]
    exact resumeSpec_head tr s e i hlt
  · intro j hj hmem
    rw [hm] at hmem
    have := resumeSpec_mem tr s e i j hmem
    omega

theorem c1_resume_correctness_witness :
    ∃ out, mainContinue (defaultEnv "r/") (fun _ _ => some ["a", "b"]) "1 1 0"
        { rng := [], api := [], pos := none } = some out
      ∧ processedOf out.2 = resumeSpec (fun _ _ => some ["a", "b"]) 1 1 0
      ∧ (0 + 1 < (listify (some ["a", "b"])).length →
          (processedOf out.2).head? = some (1, 1, 0 + 1))
      ∧ ∀ j, j ≤ 0 → (1, 1, j) ∉ processedOf out.2 :=
  c1_resume_correctness (defaultEnv "r/") (fun _ _ => some ["a", "b"]) "1 1 0"
    1 1 0 { rng := [], api := [], pos := none }
    (by decide) (by decide) (by decide) (by decide) (by decide)

/-- C2 (position written before any publish attempt): the trace of
`Run.handle` decomposes into consecutive per-index line blocks: for every
visited index `i` — including indices below `cust_start`, which are skipped
without publishing — block `i` opens with the position-file write
`posWrite season episode i`, and no later event of that block writes the
position file again; hence every network call made for index `i` (all of
them lie inside block `i`) happens strictly after the position file already
names index `i`, so the stored position always names the most recently
visited index, not merely the last successfully published one. -/
theorem c2_position_before_publish (env : Env) (season episode cust_start : Nat)
    (transcript : List String) (st : St) :
    isBlockSeq season episode 0 transcript
      (handle env season episode cust_start transcript st).2 :=
  handle_blocks env season episode cust_start transcript st

/-- C5 amended (recovery wait): the publisher does not special-case rate
limits.  `api_call_with_recovery` sleeps the fixed `RECOVERY_SLEEP` (default
5400 s = 90 min) on every failed call — whether or not the error is a rate
limit, and regardless of any reset timestamp it carries — and then re-raises
the very same exception to the caller; there is no `resetTime − now + 5 s`
sleep, no ≈ 15-minute fallback, and no distinct recoverable-rate-limit
outcome. -/
theorem c5_rate_limit_amended (env : Env) (st : St) (e : ApiErr)
    (rest : List (Except ApiErr Nat)) (hst : st.api = .error e :: rest) :
    api_call_with_recovery env st
      = (.error e, { st with api := rest }, [.sleep env.recoverySleep])
    ∧ (defaultEnv "").recoverySleep = 5400 :=
  ⟨acwr_error env st e rest hst, rfl⟩

theorem c5_rate_limit_amended_witness :
    api_call_with_recovery (defaultEnv "r/")
        { rng := [], api := [.error (.rateLimited (some 1120))], pos := none }
      = (.error (.rateLimited (some 1120)),
         { rng := [], api := [], pos := none }, [.sleep 5400])
    ∧ (defaultEnv "").recoverySleep = 5400 :=
  c5_rate_limit_amended (defaultEnv "r/")
    { rng := [], api := [.error (.rateLimited (some 1120))], pos := none }
    (.rateLimited (some 1120)) [] rfl

/-- C5 counterexample: with the default configuration, a rate-limit whose
reset timestamp lies 120 s in the future (now = 1000 s, resetAt = 1120 s)
makes the wrapper sleep the fixed 5400 s — not ≈ 125 s (reset − now + 5 s
buffer) as the claim requires — and the rate-limit error is re-raised
unchanged instead of being surfaced as a distinct recoverable outcome. -/
theorem c5_counterexample :
    (api_call_with_recovery (defaultEnv "r/")
        { rng := [], api := [.error (.rateLimited (some 1120))], pos := none }).2.2
      = [.sleep 5400]
    ∧ (api_call_with_recovery (defaultEnv "r/")
        { rng := [], api := [.error (.rateLimited (some 1120))], pos := none }).1
      = .error (.rateLimited (some 1120))
    ∧ (5400 : Nat) ≠ 1120 - 1000 + 5 :=
  ⟨rfl, rfl, by decide⟩

/-- C8 (failure containment): (a) whatever the remote oracle returns —
success, rate limit, duplicate rejection, file-not-found, or any other
exception — `Run.handle` visits every transcript index exactly once, in
order: its position-write sequence is exactly `0, …, len − 1`.  It never
retries an index and never aborts the episode.  (b) Every visited index ends
in exactly one of three ways: skipped (below `cust_start`), success (closing
with the posting-interval sleep and the success log), or failure (closing
with the error log `tweetFailed i` followed by the fixed recovery-interval
sleep), after which the loop moves to the next index by (a).  Per-line
failures are thus contained: in the embedding nothing in steady-state
operation ends the run (external interrupts are delivered by the operating
system and are outside the embedding, and `main`'s startup errors happen
before `run_tweets` starts). -/
theorem c8_failure_containment (env : Env) (season episode cust_start : Nat) :
    (∀ (transcript : List String) (st : St),
      visitedOf (handle env season episode cust_start transcript st).2
        = (List.range transcript.length).map fun j => (season, episode, j))
    ∧ ∀ (i : Nat) (l : String) (st : St),
        ((handleLine env season episode cust_start i l st).2
            = [.posWrite season episode i] ∧ i < cust_start)
        ∨ (∃ mid, (handleLine env season episode cust_start i l st).2
              = .posWrite season episode i :: .processLine season episode i ::
                  (mid ++ [.sleep env.tweetInterval, .lineTweeted i])
            ∧ mid.all isInnerEv = true ∧ cust_start ≤ i)
        ∨ (∃ mid, (handleLine env season episode cust_start i l st).2
              = .posWrite season episode i :: .processLine season episode i ::
                  (mid ++ [.tweetFailed i, .sleep env.recoverySleep])
            ∧ mid.all isInnerEv = true ∧ cust_start ≤ i) :=
  ⟨fun transcript st => handle_V env season episode cust_start transcript st,
   fun i l st => handleLine_shape env season episode cust_start i l st⟩

/-- C10 (malformed image directive is non-fatal): a processed line that
starts with the characters "img" but has fewer than two whitespace fields
makes `line.split()[1]` raise `IndexError` inside the per-line try block,
before any network call: the iteration produces no upload or create attempt,
logs the failure, sleeps the recovery interval, and changes nothing but the
position file; the loop then continues with the next line (both lines of a
two-line transcript are still visited) and the process does not crash. -/
theorem c10_malformed_img_directive (env : Env) (s e c i : Nat) (line : String)
    (st : St)
    (himg : pyStartsWith line "img" = true)
    (hlen : (pySplit line).length < 2)
    (hc : c ≤ i) :
    (handleLine env s e c i line st).2
      = [.posWrite s e i, .processLine s e i, .tweetFailed i, .sleep env.recoverySleep]
    ∧ (handleLine env s e c i line st).1 = { st with pos := some (s, e, i) }
    ∧ ∀ (l2 : String) (st' : St),
        visitedOf (handle env s e c [line, l2] st').2 = [(s, e, 0), (s, e, 1)] := by
  have hsplit : (pySplit line)[1]? = none := List.getElem?_eq_none (by omega)
  have hni : ¬ i < c := Nat.not_lt.mpr hc
  refine ⟨?_, ?_, ?_⟩
  · simp [handleLine, hni, himg, hsplit]
  · simp [handleLine, hni, himg, hsplit]
  · intro l2 st'
    rw [handle_V]
    rfl

theorem c10_malformed_img_directive_witness :
    (handleLine (defaultEnv "r/") 1 1 0 0 "img"
        { rng := [], api := [], pos := none }).2
      = [.posWrite 1 1 0, .processLine 1 1 0, .tweetFailed 0, .sleep 5400]
    ∧ (handleLine (defaultEnv "r/") 1 1 0 0 "img"
        { rng := [], api := [], pos := none }).1
      = { rng := [], api := [], pos := some (1, 1, 0) }
    ∧ ∀ (l2 : String) (st' : St),
        visitedOf (handle (defaultEnv "r/") 1 1 0 ["img", l2] st').2
          = [(1, 1, 0), (1, 1, 1)] :=
  c10_malformed_img_directive (defaultEnv "r/") 1 1 0 0 "img"
    { rng := [], api := [], pos := none } (by decide) (by decide) (by decide)

lemma handle_nil (env : Env) (s e c : Nat) (st : St) :
    handle env s e c [] st = (st, []) := rfl

/-- C9 (transcript loading): `Extract.listify` keeps exactly the non-blank
lines, in original file order — it is the filter of the non-empty lines, so a
file of `N` lines of which `B` are blank yields exactly `N − B` entries,
0-based over the filtered list.  A missing or unreadable file (`none`)
yields the empty transcript (the error is logged as a warning, not raised);
`Run.handle` does nothing at all on an empty transcript; and an episode
whose transcript is empty contributes only its inter-episode sleep to the
campaign, which then proceeds with the remaining episodes exactly as before
— the campaign is not aborted. -/
theorem c9_transcript_loading :
    (∀ ls : List String, listify (some ls) = ls.filter fun l => decide (l ≠ ""))
    ∧ (∀ ls : List String, (listify (some ls)).length = ls.length - ls.count "")
    ∧ listify none = []
    ∧ (∀ (env : Env) (s e c : Nat) (st : St),
        handle env s e c (listify none) st = (st, []))
    ∧ (∀ (env : Env) (tr : Transcripts) (σ ε ls : Nat) (rest : List Nat) (st : St),
        listify (tr σ ε) = [] →
          (runEpisodes env tr σ ls (ε :: rest) st).1
            = (runEpisodes env tr σ 0 rest st).1
          ∧ (runEpisodes env tr σ ls (ε :: rest) st).2.2
            = Event.sleep env.recoverySleep
                :: (runEpisodes env tr σ 0 rest st).2.2) := by
  have hfilter : ∀ ls : List String,
      listify (some ls) = ls.filter fun l => decide (l ≠ "") := by
    intro ls
    induction ls with
    | nil => rfl
    | cons l rest ih =>
      simp only [listify] at ih
      by_cases hl : l = ""
      · subst hl
        simpa [listify, listifyGo, List.filter_cons] using ih
      · simpa [listify, listifyGo, List.filter_cons, hl] using ih
  refine ⟨hfilter, ?_, rfl, fun env s e c st => rfl, ?_⟩
  · intro ls
    induction ls with
    | nil => rfl
    | cons l rest ih =>
      have hle : rest.count "" ≤ rest.length := List.count_le_length _ _
      by_cases hl : l = ""
      · subst hl
        have h1 : listify (some ("" :: rest)) = listify (some rest) := by
          simp [listify, listifyGo]
        have hc1 : List.count "" ("" :: rest) = List.count "" rest + 1 := by
          simp [List.count_cons]
        rw [h1, ih, List.length_cons, hc1]
        omega
      · have h1 : listify (some (l :: rest)) = l :: listify (some rest) := by
          simp [listify, listifyGo, hl]
        have hc1 : List.count "" (l :: rest) = List.count "" rest := by
          simp [List.count_cons, hl]
        rw [h1, List.length_cons, ih, List.length_cons, hc1]
        omega
  · intro env tr σ ε ls rest st h
    simp only [runEpisodes, h, handle_nil]
    exact ⟨trivial, rfl⟩

theorem c9_transcript_loading_witness :
    (runEpisodes (defaultEnv "r/") (fun _ _ => none) 1 5 ([2] : List Nat)
        { rng := [], api := [], pos := none }).1
      = (runEpisodes (defaultEnv "r/") (fun _ _ => none) 1 0 ([] : List Nat)
        { rng := [], api := [], pos := none }).1
    ∧ (runEpisodes (defaultEnv "r/") (fun _ _ => none) 1 5 ([2] : List Nat)
        { rng := [], api := [], pos := none }).2.2
      = Event.sleep 5400
          :: (runEpisodes (defaultEnv "r/") (fun _ _ => none) 1 0 ([] : List Nat)
            { rng := [], api := [], pos := none }).2.2 :=
  c9_transcript_loading.2.2.2.2 (defaultEnv "r/") (fun _ _ => none) 1 2 5 []
    { rng := [], api := [], pos := none } rfl

/-- C3 counterexample: the transcript line "imgZ 9 zz" has first whitespace
token "imgZ", not "img", yet the runner treats it as an image post — it
attempts a media upload with image id "9" (the second token) and posts the
caption "zz" — because the code tests `line.startswith("img")`, a prefix of
the characters, not equality of the first token. -/
theorem c3_counterexample :
    (pySplit "imgZ 9 zz")[0]? = some "imgZ"
    ∧ ¬ (pySplit "imgZ 9 zz")[0]? = some "img"
    ∧ (handleLine (defaultEnv "r/") 1 1 0 0 "imgZ 9 zz"
        { rng := [0], api := [.ok 1, .ok 2], pos := none }).2
      = [.posWrite 1 1 0, .processLine 1 1 0, .uploadAttempt "r/1/1/img/9.jpg",
         .createAttempt "\u200Bzz" (some 1), .sleep 5400, .lineTweeted 0] :=
  ⟨rfl, by decide, rfl⟩

/-- C3 amended (post composition): the dispatch is on
`line.startswith("img")` — a character-prefix test, not first-token equality.
A processed line that does not start with the characters "img" is posted as
a text post whose content is the whole line verbatim up to the single
invisible zero-width space of the anti-duplication pass (`stripZWSP`
equality); a processed line that does start with "img" is treated as an
image post whose image id is the second whitespace token (`line.split()[1]`)
and whose posted content is the remaining tokens joined by single spaces
(`' '.join(line.split()[2:])`), again up to the zero-width space. -/
theorem c3_post_composition_amended (env : Env) (s e c i : Nat) (line : String)
    (st : St) (hc : c ≤ i) :
    (pyStartsWith line "img" = false →
      ∀ (tid : Nat) (rest : List (Except ApiErr Nat)), st.api = .ok tid :: rest →
        ∃ text, (handleLine env s e c i line st).2
            = [.posWrite s e i, .processLine s e i, .createAttempt text none,
               .sleep env.tweetInterval, .lineTweeted i]
          ∧ stripZWSP text = stripZWSP line)
    ∧ (pyStartsWith line "img" = true →
      ∀ (img_no : String), (pySplit line)[1]? = some img_no →
        ∀ (m tid : Nat) (rest : List (Except ApiErr Nat)),
          st.api = .ok m :: .ok tid :: rest →
          ∃ text, (handleLine env s e c i line st).2
              = [.posWrite s e i, .processLine s e i,
                 .uploadAttempt (get_filepath env s e ++ "/img/" ++ img_no ++ ".jpg"),
                 .createAttempt text (some m), .sleep env.tweetInterval,
                 .lineTweeted i]
            ∧ stripZWSP text = stripZWSP (extract_image_line_text line)) := by
  have hni : ¬ i < c := Nat.not_lt.mpr hc
  constructor
  · intro hfalse tid rest hst
    refine ⟨(insert_zero_width_space line { st with pos := some (s, e, i) }).1, ?_,
      stripZWSP_insert_zero_width_space line _⟩
    have hapi : ({ st with pos := some (s, e, i) } : St).api = Except.ok tid :: rest := hst
    simp only [handleLine, hni, if_false, hfalse, Bool.false_eq_true]
    rw [tweet_ok env line { st with pos := some (s, e, i) } tid rest hapi]
    rfl
  · intro htrue img_no hno m tid rest hst
    refine ⟨(insert_zero_width_space (extract_image_line_text line)
        { st with pos := some (s, e, i) }).1, ?_,
      stripZWSP_insert_zero_width_space _ _⟩
    have hapi : (insert_zero_width_space (extract_image_line_text line)
        { st with pos := some (s, e, i) }).2.api
          = Except.ok m :: (Except.ok tid :: rest) := by
      rw [(insert_api_pos _ _).1]
      exact hst
    simp only [handleLine, hni, if_false, htrue, if_true, hno]
    simp only [tweet_with_image]
    rw [uploadCall_ok _ _ _ _ _ hapi]
    dsimp only
    rw [createCall_ok _ _ (some m) _ tid rest rfl]
    rfl

theorem c3_post_composition_amended_witness :
    (∃ text, (handleLine (defaultEnv "r/") 1 1 0 0 "hello"
          { rng := [0], api := [.ok 1], pos := none }).2
        = [.posWrite 1 1 0, .processLine 1 1 0, .createAttempt text none,
           .sleep 5400, .lineTweeted 0]
      ∧ stripZWSP text = stripZWSP "hello")
    ∧ (∃ text, (handleLine (defaultEnv "r/") 1 1 0 0 "img 7 hi"
          { rng := [0], api := [.ok 3, .ok 4], pos := none }).2
        = [.posWrite 1 1 0, .processLine 1 1 0, .uploadAttempt "r/1/1/img/7.jpg",
           .createAttempt text (some 3), .sleep 5400, .lineTweeted 0]
      ∧ stripZWSP text = stripZWSP (extract_image_line_text "img 7 hi")) :=
  ⟨(c3_post_composition_amended (defaultEnv "r/") 1 1 0 0 "hello"
      { rng := [0], api := [.ok 1], pos := none } (by decide)).1
        (by decide) 1 [] rfl,
   (c3_post_composition_amended (defaultEnv "r/") 1 1 0 0 "img 7 hi"
      { rng := [0], api := [.ok 3, .ok 4], pos := none } (by decide)).2
        (by decide) "7" (by decide) 3 4 [] rfl⟩

/-- C4 counterexample: when the media upload succeeds but the create-tweet
call with the media id is rejected with a tweepy error (for example a
duplicate-content rejection), `tweet_with_image` falls back to a text-only
create-tweet call with the *same* already-obfuscated text: the two publish
attempts of the line are byte-identical with certainty, not merely with
negligible probability — the zero-width-space offset is not re-randomized
for the fallback attempt. -/
theorem c4_counterexample :
    createTextsOf (tweet_with_image (defaultEnv "root/") 1 2 "7" "img 7 ab"
        { rng := [1], api := [.ok 11, .error (.tweepyOther "dup"), .ok 12],
          pos := none }).2.2
      = ["a\u200Bb", "a\u200Bb"] := rfl

/-- C4 amended (anti-duplication): for non-empty content one zero-width
space is inserted at offset `r % len ∈ [0, len − 1]` (both ends of the
string included), consuming one fresh random draw per call — the length
grows by exactly one, exactly one zero-width space is added, and removing
zero-width spaces recovers the original text; empty content is returned
unmodified.  The offset is fresh for each call of `tweet` /
`tweet_with_image`, but *within* `tweet_with_image` the obfuscation is
applied once, so the text-only fallback attempt after a failed
create-with-media call reuses the identical obfuscated byte sequence. -/
theorem c4_anti_duplication_amended :
    (∀ (s : String) (r : Nat) (rs : List Nat) (api : List (Except ApiErr Nat))
        (pos : Option (Nat × Nat × Nat)), s.data ≠ [] →
      insert_zero_width_space s { rng := r :: rs, api := api, pos := pos }
          = (insertZWSPAt s (r % s.data.length), { rng := rs, api := api, pos := pos })
        ∧ r % s.data.length < s.data.length
        ∧ (insertZWSPAt s (r % s.data.length)).data.length = s.data.length + 1
        ∧ countZWSP (insertZWSPAt s (r % s.data.length)) = countZWSP s + 1
        ∧ stripZWSP (insertZWSPAt s (r % s.data.length)) = stripZWSP s)
    ∧ (∀ st : St, insert_zero_width_space "" st = ("", st))
    ∧ (∀ (env : Env) (season episode : Nat) (img_no line : String) (st : St)
        (m : Nat) (d : String) (tid : Nat) (rest : List (Except ApiErr Nat)),
        st.api = .ok m :: .error (.tweepyOther d) :: .ok tid :: rest →
        ∃ text,
          createTextsOf (tweet_with_image env season episode img_no line st).2.2
            = [text, text]) := by
  refine ⟨?_, fun st => rfl, ?_⟩
  · intro s r rs api pos hs
    have hpos : 0 < s.data.length := List.length_pos.mpr hs
    have hmod : r % s.data.length < s.data.length := Nat.mod_lt _ hpos
    refine ⟨?_, hmod, length_insertZWSPAt s _ (le_of_lt hmod),
      countZWSP_insertZWSPAt s _, stripZWSP_insertZWSPAt s _⟩
    simp [insert_zero_width_space, hs, nextRand]
  · intro env season episode img_no line st m d tid rest hst
    refine ⟨(insert_zero_width_space (extract_image_line_text line) st).1, ?_⟩
    have hapi : (insert_zero_width_space (extract_image_line_text line) st).2.api
        = Except.ok m :: (Except.error (.tweepyOther d) :: Except.ok tid :: rest) := by
      rw [(insert_api_pos _ _).1]
      exact hst
    simp only [tweet_with_image]
    rw [uploadCall_ok _ _ _ _ _ hapi]
    dsimp only
    rw [createCall_error _ _ (some m) _ (.tweepyOther d) _ rfl]
    dsimp only [caughtByFallback]
    rw [createCall_ok _ _ none _ tid rest rfl]
    rfl

theorem c4_anti_duplication_amended_witness :
    (insert_zero_width_space "ab" { rng := [1], api := [], pos := none }
        = (insertZWSPAt "ab" (1 % "ab".data.length),
           { rng := [], api := [], pos := none })
      ∧ 1 % "ab".data.length < "ab".data.length
      ∧ (insertZWSPAt "ab" (1 % "ab".data.length)).data.length = "ab".data.length + 1
      ∧ countZWSP (insertZWSPAt "ab" (1 % "ab".data.length)) = countZWSP "ab" + 1
      ∧ stripZWSP (insertZWSPAt "ab" (1 % "ab".data.length)) = stripZWSP "ab")
    ∧ ∃ text,
        createTextsOf (tweet_with_image (defaultEnv "root/") 1 2 "7" "img 7 ab"
            { rng := [1], api := [.ok 11, .error (.tweepyOther "dup"), .ok 12],
              pos := none }).2.2
          = [text, text] :=
  ⟨c4_anti_duplication_amended.1 "ab" 1 [] [] none (by decide),
   c4_anti_duplication_amended.2.2 (defaultEnv "root/") 1 2 "7" "img 7 ab"
     { rng := [1], api := [.ok 11, .error (.tweepyOther "dup"), .ok 12], pos := none }
     11 "dup" 12 [] rfl⟩

/-- C6 (image-failure fallback): when the media upload for a processed image
line fails with `FileNotFoundError` or any tweepy error, the line is still
published: after the wrapper's recovery sleep the degradation is logged and
a text-only create-tweet attempt is made whose content is the stripped
caption (`' '.join(line.split()[2:])`) up to the single zero-width space;
when that attempt succeeds the iteration closes through the success path —
posting-interval sleep and success log, no `tweetFailed` — so the line is
not counted as failed and the episode continues with the next line. -/
theorem c6_image_fallback (env : Env) (s e c i : Nat) (line : String) (st : St)
    (er : ApiErr) (tid : Nat) (rest : List (Except ApiErr Nat))
    (img_no : String)
    (himg : pyStartsWith line "img" = true)
    (hno : (pySplit line)[1]? = some img_no)
    (hc : c ≤ i)
    (hst : st.api = .error er :: .ok tid :: rest)
    (her : caughtByFallback er = true) :
    ∃ text,
      (handleLine env s e c i line st).2
        = [.posWrite s e i, .processLine s e i,
           .uploadAttempt (get_filepath env s e ++ "/img/" ++ img_no ++ ".jpg"),
           .sleep env.recoverySleep,
           .imageFallback (get_filepath env s e ++ "/img/" ++ img_no ++ ".jpg"),
           .createAttempt text none, .sleep env.tweetInterval, .lineTweeted i]
      ∧ stripZWSP text = stripZWSP (extract_image_line_text line) := by
  have hni : ¬ i < c := Nat.not_lt.mpr hc
  refine ⟨(insert_zero_width_space (extract_image_line_text line)
      { st with pos := some (s, e, i) }).1, ?_,
    stripZWSP_insert_zero_width_space _ _⟩
  have hapi : (insert_zero_width_space (extract_image_line_text line)
      { st with pos := some (s, e, i) }).2.api
        = Except.error er :: (Except.ok tid :: rest) := by
    rw [(insert_api_pos _ _).1]
    exact hst
  simp only [handleLine, hni, if_false, himg, if_true, hno]
  simp only [tweet_with_image]
  rw [uploadCall_error _ _ _ _ _ hapi]
  dsimp only
  rw [her, if_pos rfl]
  rw [createCall_ok _ _ none _ tid rest rfl]
  rfl

theorem c6_image_fallback_witness :
    ∃ text,
      (handleLine (defaultEnv "r/") 1 1 0 0 "img 7 hi"
          { rng := [0], api := [.error .fileNotFound, .ok 5], pos := none }).2
        = [.posWrite 1 1 0, .processLine 1 1 0, .uploadAttempt "r/1/1/img/7.jpg",
           .sleep 5400, .imageFallback "r/1/1/img/7.jpg",
           .createAttempt text none, .sleep 5400, .lineTweeted 0]
      ∧ stripZWSP text = stripZWSP (extract_image_line_text "img 7 hi") :=
  c6_image_fallback (defaultEnv "r/") 1 1 0 0 "img 7 hi"
    { rng := [0], api := [.error .fileNotFound, .ok 5], pos := none }
    .fileNotFound 5 [] "7" (by decide) (by decide) (by decide) rfl rfl

/-- C7 counterexample: a duplicate-content rejection (a tweepy error) on a
text line is *not* handled "exactly as if the post had succeeded": the
iteration goes through the generic failure path — the wrapper sleeps the
recovery interval and re-raises, the runner logs `tweetFailed` and sleeps
the recovery interval again — whereas a successful post sleeps the posting
interval once and logs `lineTweeted`; these traces differ. -/
theorem c7_counterexample :
    (handleLine (defaultEnv "r/") 1 1 0 0 "hello"
        { rng := [0], api := [.error (.tweepyOther "duplicate content")],
          pos := none }).2
      = [.posWrite 1 1 0, .processLine 1 1 0,
         .createAttempt "\u200Bhello" none, .sleep 5400, .tweetFailed 0,
         .sleep 5400]
    ∧ (handleLine (defaultEnv "r/") 1 1 0 0 "hello"
        { rng := [0], api := [.ok 1], pos := none }).2
      = [.posWrite 1 1 0, .processLine 1 1 0,
         .createAttempt "\u200Bhello" none, .sleep 5400, .lineTweeted 0]
    ∧ Event.tweetFailed 0 ∈ (handleLine (defaultEnv "r/") 1 1 0 0 "hello"
        { rng := [0], api := [.error (.tweepyOther "duplicate content")],
          pos := none }).2
    ∧ Event.lineTweeted 0 ∉ (handleLine (defaultEnv "r/") 1 1 0 0 "hello"
        { rng := [0], api := [.error (.tweepyOther "duplicate content")],
          pos := none }).2 := by
  refine ⟨rfl, rfl, by decide, by decide⟩

/-- C7 amended (duplicate-content handling): a duplicate-content rejection is
not distinguished from any other create-tweet exception: the line goes
through the generic per-line failure path — the wrapper sleeps the recovery
interval and re-raises, the runner logs the failure and sleeps the recovery
interval — and then the campaign *does* advance: the next line is visited,
attempted and (here) posted normally.  There is no second attempt of the
rejected line, no infinite retry, and no crash — but the rejected line is
handled by the failure path, not "exactly as if the post had succeeded". -/
theorem c7_duplicate_advances_amended (env : Env) (s e : Nat) (l1 l2 : String)
    (st : St) (d : String) (tid : Nat)
    (r1 r2 : Nat) (rs : List Nat) (rest : List (Except ApiErr Nat))
    (himg1 : pyStartsWith l1 "img" = false)
    (himg2 : pyStartsWith l2 "img" = false)
    (hd1 : l1.data ≠ [])
    (hd2 : l2.data ≠ [])
    (hrng : st.rng = r1 :: r2 :: rs)
    (hst : st.api = .error (.tweepyOther d) :: .ok tid :: rest) :
    (handle env s e 0 [l1, l2] st).2
      = [.posWrite s e 0, .processLine s e 0,
         .createAttempt (insertZWSPAt l1 (r1 % l1.data.length)) none,
         .sleep env.recoverySleep, .tweetFailed 0, .sleep env.recoverySleep,
         .posWrite s e 1, .processLine s e 1,
         .createAttempt (insertZWSPAt l2 (r2 % l2.data.length)) none,
         .sleep env.tweetInterval, .lineTweeted 1] := by
  obtain ⟨rng, api, pos⟩ := st
  replace hrng : rng = r1 :: r2 :: rs := hrng
  replace hst : api = Except.error (.tweepyOther d) :: Except.ok tid :: rest := hst
  subst hrng
  subst hst
  simp [handle, handleGo, handleLine, tweet, createCall, api_call_with_recovery,
    nextApi, insert_zero_width_space, nextRand, himg1, himg2, hd1, hd2]

theorem c7_duplicate_advances_amended_witness :
    (handle (defaultEnv "r/") 1 1 0 ["aa", "bb"]
        { rng := [0, 1], api := [.error (.tweepyOther "duplicate"), .ok 9],
          pos := none }).2
      = [.posWrite 1 1 0, .processLine 1 1 0,
         .createAttempt (insertZWSPAt "aa" (0 % "aa".data.length)) none,
         .sleep 5400, .tweetFailed 0, .sleep 5400,
         .posWrite 1 1 1, .processLine 1 1 1,
         .createAttempt (insertZWSPAt "bb" (1 % "bb".data.length)) none,
         .sleep 5400, .lineTweeted 1] :=
  c7_duplicate_advances_amended (defaultEnv "r/") 1 1 "aa" "bb"
    { rng := [0, 1], api := [.error (.tweepyOther "duplicate"), .ok 9], pos := none }
    "duplicate" 9 0 1 [] [] (by decide) (by decide) (by decide) (by decide) rfl rfl

end TweetRunner
